import Mathlib

/-!
Shallow embedding of the optimized download task of `portablemc/download.py`:
the `DownloadEntry` / `_DownloadEntry` (here `PreparedEntry`) data model, the
`DownloadList` operations (`clear`, `add`, the sort performed by `download`),
the `DownloadTask.execute` event/result loop, and the per-entry attempt loop of
the worker function `_download_thread` (connection cache, redirect
re-injection, retry policy, validation and unlink).

Filesystem, network and hashing effects are made explicit parameters:
a regular file is modelled by `fs : String → Option Nat` (its size when it is
one), the network behaviour of one attempt by `AttemptNet`, and the SHA-1 of a
received body is the `digest` string carried by the attempt.
-/

namespace PortableMC

/-- Failure code strings of `DownloadError`. -/
def DownloadError.CONNECTION : String := "connection"

def DownloadError.NOT_FOUND : String := "not_found"

def DownloadError.INVALID_SIZE : String := "invalid_size"

def DownloadError.INVALID_SHA1 : String := "invalid_sha1"

/-- `DownloadEntry`: url, destination, optional expected size and sha1,
display name (already resolved, see `mkDownloadEntry`) and executable flag. -/
structure DownloadEntry where
  url : String
  dst : String
  size : Option Nat
  sha1 : Option String
  name : String
  executable : Bool
deriving DecidableEq, Repr

/-- `DownloadEntry.__init__`: `self.name = url if name is None else name`,
`executable` defaults to false at call sites that omit it. -/
def mkDownloadEntry (url : String) (dst : String) (size : Option Nat)
    (sha1 : Option String) (name : Option String) (executable : Bool) :
    DownloadEntry :=
  { url := url, dst := dst, size := size, sha1 := sha1,
    name := match name with | none => url | some n => n,
    executable := executable }

/-- Result of `urllib.parse.urlparse`, restricted to the two fields the code
reads. The parsing function itself is an external library; it is passed as a
parameter `parse : String → UrlParsed` everywhere it is used. -/
structure UrlParsed where
  scheme : String
  netloc : String
deriving DecidableEq, Repr

/-- `_DownloadEntry`: entry with already parsed URL. -/
structure PreparedEntry where
  https : Bool
  host : String
  entry : DownloadEntry
deriving DecidableEq, Repr

/-- `_DownloadEntry.from_entry`: parse the URL, raise `ValueError` when the
scheme is neither `http` nor `https`. -/
def PreparedEntry.from_entry (parse : String → UrlParsed)
    (entry : DownloadEntry) : Except String PreparedEntry :=
  if (parse entry.url).scheme ≠ "http" ∧ (parse entry.url).scheme ≠ "https" then
    Except.error ("unsupported scheme " ++ (parse entry.url).scheme)
  else
    Except.ok { https := (parse entry.url).scheme == "https",
                host := (parse entry.url).netloc, entry := entry }

/-- `DownloadList`: entries plus cached count and cumulative size. -/
structure DownloadList where
  entries : List PreparedEntry
  count : Nat
  size : Nat
deriving DecidableEq, Repr

/-- `DownloadList.__init__`. -/
def DownloadList.init : DownloadList :=
  { entries := [], count := 0, size := 0 }

/-- `DownloadList.clear`: removes all entries and resets count and size. -/
def DownloadList.clear (_l : DownloadList) : DownloadList :=
  { entries := [], count := 0, size := 0 }

/-- `DownloadList.add`: skip when `verify` holds, `dst` is a regular file and
the expected size is unset or matches the on-disk size; otherwise prepare the
entry (which may raise) and append it, incrementing `count` and adding the
declared size to `size`. -/
def DownloadList.add (parse : String → UrlParsed) (fs : String → Option Nat)
    (l : DownloadList) (entry : DownloadEntry) (verify : Bool) :
    Except String DownloadList :=
  if verify = true ∧ (fs entry.dst).isSome ∧
      (entry.size = none ∨ entry.size = fs entry.dst) then
    Except.ok l
  else
    match PreparedEntry.from_entry parse entry with
    | Except.error e => Except.error e
    | Except.ok pe =>
        Except.ok { entries := l.entries ++ [pe], count := l.count + 1,
                    size := l.size + entry.size.getD 0 }

/-- Python truthiness of `x or d` for `x : Optional[int]`: `None` and `0` are
falsy. Used both by `(os.cpu_count() or 1)` and by the sort key
`e.entry.size or 1048576`. -/
def pyOr (x : Option Nat) (d : Nat) : Nat :=
  match x with
  | none => d
  | some n => if n = 0 then d else n

/-- The sort key of `DownloadList.download`: `e.entry.size or 1048576`. -/
def sortKey (e : PreparedEntry) : Nat :=
  pyOr e.entry.size 1048576

/-- Stable descending insertion used to model `list.sort(key=..., reverse=True)`:
`e` is placed after every earlier element with a strictly larger key and before
the first element whose key is not larger (so earlier elements win ties). -/
def insertEntry (e : PreparedEntry) : List PreparedEntry → List PreparedEntry
  | [] => [e]
  | x :: xs =>
      if sortKey e < sortKey x then x :: insertEntry e xs
      else e :: x :: xs

/-- The in-place stable sort `self.entries.sort(key=lambda e: e.entry.size or
1048576, reverse=True)` performed by `DownloadList.download` before dispatch. -/
def sortEntries : List PreparedEntry → List PreparedEntry
  | [] => []
  | x :: xs => insertEntry x (sortEntries xs)

/-- A result sent over the result queue by a worker: `DownloadResultProgress`
or `DownloadResultError`. Speed is modelled as a natural number; no claim
depends on its value. -/
inductive DownloadResult where
  | progress (threadId : Nat) (entry : DownloadEntry) (size : Nat) (speed : Nat)
  | error (threadId : Nat) (entry : DownloadEntry) (code : String)
deriving DecidableEq, Repr

/-- Whether a result is a `DownloadResultProgress`. -/
def DownloadResult.isProgress : DownloadResult → Bool
  | .progress _ _ _ _ => true
  | .error _ _ _ => false

/-- Events handed to the watcher by `DownloadTask.execute`. -/
inductive DownloadEvent where
  | start (threadsCount : Nat) (entriesCount : Nat) (size : Nat)
  | progress (threadId : Nat) (count : Nat) (entry : DownloadEntry)
      (size : Nat) (speed : Nat)
  | complete
deriving DecidableEq, Repr

/-- Output of one run of `DownloadTask.execute`: the events handed to the
watcher, the number of worker threads spawned by `DownloadList.download`, and
either the final list (success) or the accumulated `(entry, code)` failures
carried by the raised `DownloadError`. -/
structure ExecuteOutput where
  events : List DownloadEvent
  spawned : Nat
  result : Except (List (DownloadEntry × String)) DownloadList
deriving Repr

/-- One iteration of the `for result_count, result in dl.download(...)` loop
of `DownloadTask.execute`: the accumulator is the events so far, the `errors`
buffer, and `result_count`. -/
def executeStep (acc : List DownloadEvent × List (DownloadEntry × String) × Nat)
    (r : DownloadResult) : List DownloadEvent × List (DownloadEntry × String) × Nat :=
  match r with
  | DownloadResult.progress tid e sz spd =>
      (acc.1 ++ [DownloadEvent.progress tid (acc.2.2 + 1) e sz spd],
       acc.2.1, acc.2.2 + 1)
  | DownloadResult.error _tid e code =>
      (acc.1, acc.2.1 ++ [(e, code)], acc.2.2 + 1)

/-- `DownloadTask.execute`. `cpuCount` models `os.cpu_count()` (possibly
`None`); `results` is the sequence of results read off the result queue, one
per entry. When the list is empty the function returns at once: no event, no
thread. Otherwise `threads_count = min(entries_count, (os.cpu_count() or 1) *
4)` threads are spawned by `download`, a start event fires, each progress
result yields a progress event with the running count, errors accumulate, and
at exhaustion either a `DownloadError` carries the failures or the entries are
cleared (only `entries`; `count` and `size` are untouched) and the complete
event fires. -/
def DownloadTask.execute (cpuCount : Option Nat) (dl : DownloadList)
    (results : List DownloadResult) : ExecuteOutput :=
  let entriesCount := dl.entries.length
  if entriesCount = 0 then
    { events := [], spawned := 0, result := Except.ok dl }
  else
    let threadsCount := min entriesCount (pyOr cpuCount 1 * 4)
    let startEv := DownloadEvent.start threadsCount entriesCount dl.size
    let folded := results.foldl executeStep ([startEv], [], 0)
    if folded.2.1 = [] then
      { events := folded.1 ++ [DownloadEvent.complete], spawned := threadsCount,
        result := Except.ok { dl with entries := [] } }
    else
      { events := folded.1, spawned := threadsCount,
        result := Except.error folded.2.1 }

/-- Network behaviour of one attempt of `_download_thread` for one entry,
covering the four branches the code distinguishes:
`raiseReq`: `conn.request` / `conn.getresponse` raises one of
`(ConnectionError, OSError, HTTPException)`;
`redirect location`: status 301/302 with the given `Location` header;
`otherStatus drainRaises`: any other non-200 status, `drainRaises` when the
body-draining `res.readinto` loop raises;
`body readRaises bytes digest`: status 200, `readRaises` when `res.readinto`
raises while streaming, otherwise `bytes` bytes are written whose SHA-1 hex
digest is `digest`. -/
inductive AttemptNet where
  | raiseReq
  | redirect (location : String)
  | otherStatus (drainRaises : Bool)
  | body (readRaises : Bool) (bytes : Nat) (digest : String)
deriving DecidableEq, Repr

/-- Outcome of the per-entry loop of `_download_thread`:
`reinject`: a redirect put a new prepared entry back on the entries queue and
the loop broke without a result; `failure` / `success`: a result was put on
the result queue; `crash`: an exception escaped the loop (and the worker). -/
inductive EntryOutcome where
  | reinject (pe : PreparedEntry)
  | failure (code : String)
  | success (bytes : Nat)
  | crash
deriving DecidableEq, Repr

/-- `max_try_count = 3`. -/
def max_try_count : Nat := 3

/-- The redirected entry built on a 301/302:
`DownloadEntry(redirect_url, entry.dst, size=entry.size, sha1=entry.sha1,
name=entry.name)` — `executable` is not passed, so it takes its default. -/
def redirectEntry (entry : DownloadEntry) (redirectUrl : String) : DownloadEntry :=
  mkDownloadEntry redirectUrl entry.dst entry.size entry.sha1 (some entry.name) false

/-- State returned by the per-entry attempt loop: its outcome, whether `dst`
exists as a file afterwards, and the connection object (identified by a
number) used by each attempt that issued a request, in order. -/
structure LoopOutput where
  outcome : EntryOutcome
  dstExists : Bool
  usedConns : List Nat
deriving DecidableEq, Repr

/-- The `while True` attempt loop of `_download_thread` for one entry.
`net tryNum` is what the network does on attempt number `tryNum`; `conn` is
the connection fetched from the cache before the loop (the loop never changes
it); `attemptsLeft` counts down from `max_try_count`, mirroring the
`try_num > max_try_count` exit, at which point the code asserts
`last_error is not None` and puts a `DownloadResultError` (a failing assert
would propagate, i.e. crash). On `raiseReq` the exception is caught,
`last_error = CONNECTION`, and the loop continues. On a redirect the
re-injected entry goes through `_DownloadEntry.from_entry` (whose `ValueError`
would propagate) and the loop breaks without a result. On another status the
body is drained (a raise there propagates) and `last_error = NOT_FOUND`. On a
200 the file is written (`dst` exists even if reading raises mid-stream), then
size and sha1 are validated; a validation failure sets `last_error` and
unlinks `dst`, success puts a progress result. -/
def runEntryLoop (parse : String → UrlParsed) (entry : DownloadEntry)
    (net : Nat → AttemptNet) (conn : Nat) (tryNum : Nat) (attemptsLeft : Nat)
    (lastError : Option String) (dstExists : Bool) : LoopOutput :=
  match attemptsLeft with
  | 0 =>
      match lastError with
      | some e => { outcome := EntryOutcome.failure e, dstExists := dstExists,
                    usedConns := [] }
      | none => { outcome := EntryOutcome.crash, dstExists := dstExists,
                  usedConns := [] }
  | n + 1 =>
      match net tryNum with
      | AttemptNet.raiseReq =>
          let rest := runEntryLoop parse entry net conn (tryNum + 1) n
            (some DownloadError.CONNECTION) dstExists
          { rest with usedConns := conn :: rest.usedConns }
      | AttemptNet.redirect location =>
          match PreparedEntry.from_entry parse (redirectEntry entry location) with
          | Except.ok pe =>
              { outcome := EntryOutcome.reinject pe, dstExists := dstExists,
                usedConns := [conn] }
          | Except.error _ =>
              { outcome := EntryOutcome.crash, dstExists := dstExists,
                usedConns := [conn] }
      | AttemptNet.otherStatus drainRaises =>
          if drainRaises then
            { outcome := EntryOutcome.crash, dstExists := dstExists,
              usedConns := [conn] }
          else
            let rest := runEntryLoop parse entry net conn (tryNum + 1) n
              (some DownloadError.NOT_FOUND) dstExists
            { rest with usedConns := conn :: rest.usedConns }
      | AttemptNet.body readRaises bytes digest =>
          if readRaises then
            { outcome := EntryOutcome.crash, dstExists := true,
              usedConns := [conn] }
          else
            let sizeBad := match entry.size with
              | none => false
              | some s => bytes != s
            let sha1Bad := match entry.sha1 with
              | none => false
              | some h => digest != h
            if sizeBad then
              let rest := runEntryLoop parse entry net conn (tryNum + 1) n
                (some DownloadError.INVALID_SIZE) false
              { rest with usedConns := conn :: rest.usedConns }
            else if sha1Bad then
              let rest := runEntryLoop parse entry net conn (tryNum + 1) n
                (some DownloadError.INVALID_SHA1) false
              { rest with usedConns := conn :: rest.usedConns }
            else
              { outcome := EntryOutcome.success bytes, dstExists := true,
                usedConns := [conn] }

/-- A connection cache key: `(raw_entry.https, raw_entry.host)`. -/
abbrev ConnKey := Bool × String

/-- Handling of one raw entry taken off the entries queue by
`_download_thread`: look the connection up in the per-worker cache, create and
cache a fresh one (numbered by `nextConn`) on a miss, then run the attempt
loop with that single connection. Returns the cache and fresh-connection
counter as left by the code, the connection used, and the loop output. The
code never removes anything from `conn_cache`. -/
def processRawEntry (parse : String → UrlParsed)
    (cache : List (ConnKey × Nat)) (nextConn : Nat) (raw : PreparedEntry)
    (net : Nat → AttemptNet) :
    List (ConnKey × Nat) × Nat × Nat × LoopOutput :=
  match cache.lookup (raw.https, raw.host) with
  | some conn =>
      (cache, nextConn, conn,
       runEntryLoop parse raw.entry net conn 1 max_try_count none false)
  | none =>
      (((raw.https, raw.host), nextConn) :: cache, nextConn + 1, nextConn,
       runEntryLoop parse raw.entry net nextConn 1 max_try_count none false)

/-- Follow what happens to one entry across redirect re-injections: run the
attempt loop; while it re-injects, process the re-injected entry in turn.
`server url` is the network behaviour of every attempt against `url`.
Returns `none` when after `fuel` re-injections the entry is still being put
back on the queue without any terminal outcome. -/
def runRedirectChain (parse : String → UrlParsed)
    (server : String → AttemptNet) :
    Nat → DownloadEntry → Option LoopOutput
  | 0, _ => none
  | fuel + 1, entry =>
      let out := runEntryLoop parse entry (fun _ => server entry.url) 0 1
        max_try_count none false
      match out.outcome with
      | EntryOutcome.reinject pe => runRedirectChain parse server fuel pe.entry
      | _ => some out

/-- The chmod performed for an executable entry:
`entry.dst.chmod(prev_mode | ((prev_mode & 0o444) >> 2))`. -/
def chmodExecutable (prevMode : Nat) : Nat :=
  prevMode ||| ((prevMode &&& 0o444) >>> 2)

/-! Concrete sample inputs used by closed theorems. -/

/-- A fixed URL parser: every URL has scheme `http` and authority `host`. -/
def parse0 : String → UrlParsed := fun _ => { scheme := "http", netloc := "host" }

/-- A filesystem with no regular files. -/
def fs0 : String → Option Nat := fun _ => none

def entryA : DownloadEntry :=
  mkDownloadEntry "http://host/a" "/dir/a" (some 5) none none false

def preparedA : PreparedEntry := { https := false, host := "host", entry := entryA }

def listC2 : DownloadList := { entries := [preparedA], count := 1, size := 5 }

def cacheC3 : List (ConnKey × Nat) := [((false, "host"), 7)]

/-- A network that raises on every attempt of every entry. -/
def netRaise : Nat → AttemptNet := fun _ => AttemptNet.raiseReq

/-- A network whose every attempt returns a 200 with a 3-byte body. -/
def netBody3 : Nat → AttemptNet := fun _ => AttemptNet.body false 3 ""

/-- A network whose every attempt raises while the 200 body is being read. -/
def netReadRaise : Nat → AttemptNet := fun _ => AttemptNet.body true 0 ""

/-- A server answering every URL with a 301 to the same location. -/
def selfRedirectServer : String → AttemptNet :=
  fun _ => AttemptNet.redirect "http://host/loop"

def entryLoop : DownloadEntry :=
  mkDownloadEntry "http://host/loop" "/dir/f" none none none false

def entryZero : DownloadEntry :=
  mkDownloadEntry "http://host/z" "/dir/z" (some 0) none none false

def entrySmall : DownloadEntry :=
  mkDownloadEntry "http://host/s" "/dir/s" (some 500) none none false

def preparedZero : PreparedEntry := { https := false, host := "host", entry := entryZero }

def preparedSmall : PreparedEntry := { https := false, host := "host", entry := entrySmall }

/-! Helper lemmas. -/

/-- Unfolding of the attempt loop at zero attempts left. -/
lemma runEntryLoop_zero (parse : String → UrlParsed) (entry : DownloadEntry)
    (net : Nat → AttemptNet) (conn tryNum : Nat) (lastError : Option String)
    (dstExists : Bool) :
    runEntryLoop parse entry net conn tryNum 0 lastError dstExists =
      match lastError with
      | some e => { outcome := EntryOutcome.failure e, dstExists := dstExists,
                    usedConns := [] }
      | none => { outcome := EntryOutcome.crash, dstExists := dstExists,
                  usedConns := [] } := rfl

/-- Unfolding of the attempt loop when the request raises. -/
lemma runEntryLoop_raise (parse : String → UrlParsed) (entry : DownloadEntry)
    (net : Nat → AttemptNet) (conn tryNum n : Nat) (lastError : Option String)
    (dstExists : Bool) (h : net tryNum = AttemptNet.raiseReq) :
    runEntryLoop parse entry net conn tryNum (n + 1) lastError dstExists =
      { outcome := (runEntryLoop parse entry net conn (tryNum + 1) n
          (some DownloadError.CONNECTION) dstExists).outcome,
        dstExists := (runEntryLoop parse entry net conn (tryNum + 1) n
          (some DownloadError.CONNECTION) dstExists).dstExists,
        usedConns := conn :: (runEntryLoop parse entry net conn (tryNum + 1) n
          (some DownloadError.CONNECTION) dstExists).usedConns } := by
  rw [runEntryLoop, h]

/-- Unfolding of the attempt loop on a 301/302. -/
lemma runEntryLoop_redirect (parse : String → UrlParsed) (entry : DownloadEntry)
    (net : Nat → AttemptNet) (conn tryNum n : Nat) (lastError : Option String)
    (dstExists : Bool) (location : String)
    (h : net tryNum = AttemptNet.redirect location) :
    runEntryLoop parse entry net conn tryNum (n + 1) lastError dstExists =
      match PreparedEntry.from_entry parse (redirectEntry entry location) with
      | Except.ok pe =>
          { outcome := EntryOutcome.reinject pe, dstExists := dstExists,
            usedConns := [conn] }
      | Except.error _ =>
          { outcome := EntryOutcome.crash, dstExists := dstExists,
            usedConns := [conn] } := by
  rw [runEntryLoop, h]

/-- Unfolding of the attempt loop on a non-200, non-redirect status. -/
lemma runEntryLoop_otherStatus (parse : String → UrlParsed)
    (entry : DownloadEntry) (net : Nat → AttemptNet) (conn tryNum n : Nat)
    (lastError : Option String) (dstExists : Bool) (dr : Bool)
    (h : net tryNum = AttemptNet.otherStatus dr) :
    runEntryLoop parse entry net conn tryNum (n + 1) lastError dstExists =
      if dr then
        { outcome := EntryOutcome.crash, dstExists := dstExists,
          usedConns := [conn] }
      else
        { outcome := (runEntryLoop parse entry net conn (tryNum + 1) n
            (some DownloadError.NOT_FOUND) dstExists).outcome,
          dstExists := (runEntryLoop parse entry net conn (tryNum + 1) n
            (some DownloadError.NOT_FOUND) dstExists).dstExists,
          usedConns := conn :: (runEntryLoop parse entry net conn (tryNum + 1) n
            (some DownloadError.NOT_FOUND) dstExists).usedConns } := by
  rw [runEntryLoop, h]

/-- Unfolding of the attempt loop on a 200. -/
lemma runEntryLoop_body (parse : String → UrlParsed) (entry : DownloadEntry)
    (net : Nat → AttemptNet) (conn tryNum n : Nat) (lastError : Option String)
    (dstExists : Bool) (rr : Bool) (bytes : Nat) (digest : String)
    (h : net tryNum = AttemptNet.body rr bytes digest) :
    runEntryLoop parse entry net conn tryNum (n + 1) lastError dstExists =
      if rr then
        { outcome := EntryOutcome.crash, dstExists := true, usedConns := [conn] }
      else if (match entry.size with
          | none => false
          | some s => bytes != s) then
        { outcome := (runEntryLoop parse entry net conn (tryNum + 1) n
            (some DownloadError.INVALID_SIZE) false).outcome,
          dstExists := (runEntryLoop parse entry net conn (tryNum + 1) n
            (some DownloadError.INVALID_SIZE) false).dstExists,
          usedConns := conn :: (runEntryLoop parse entry net conn (tryNum + 1) n
            (some DownloadError.INVALID_SIZE) false).usedConns }
      else if (match entry.sha1 with
          | none => false
          | some hh => digest != hh) then
        { outcome := (runEntryLoop parse entry net conn (tryNum + 1) n
            (some DownloadError.INVALID_SHA1) false).outcome,
          dstExists := (runEntryLoop parse entry net conn (tryNum + 1) n
            (some DownloadError.INVALID_SHA1) false).dstExists,
          usedConns := conn :: (runEntryLoop parse entry net conn (tryNum + 1) n
            (some DownloadError.INVALID_SHA1) false).usedConns }
      else
        { outcome := EntryOutcome.success bytes, dstExists := true,
          usedConns := [conn] } := by
  rw [runEntryLoop, h]

/-- Inserting an entry is a permutation of consing it. -/
lemma insertEntry_perm (e : PreparedEntry) :
    ∀ l : List PreparedEntry, List.Perm (insertEntry e l) (e :: l) := by
  intro l
  induction l with
  | nil => exact List.Perm.refl _
  | cons x xs ih =>
      rw [insertEntry]
      by_cases hlt : sortKey e < sortKey x
      · rw [if_pos hlt]
        exact List.Perm.trans (List.Perm.cons x ih) (List.Perm.swap e x xs)
      · rw [if_neg hlt]

/-- Inserting into a descending list keeps it descending. -/
lemma insertEntry_pairwise (e : PreparedEntry) :
    ∀ l : List PreparedEntry,
      l.Pairwise (fun a b => sortKey b ≤ sortKey a) →
      (insertEntry e l).Pairwise (fun a b => sortKey b ≤ sortKey a) := by
  intro l
  induction l with
  | nil => intro _; simp [insertEntry]
  | cons x xs ih =>
      intro h
      rw [List.pairwise_cons] at h
      obtain ⟨hx, hxs⟩ := h
      rw [insertEntry]
      by_cases hlt : sortKey e < sortKey x
      · rw [if_pos hlt, List.pairwise_cons]
        refine ⟨fun y hy => ?_, ih hxs⟩
        rcases List.mem_cons.mp ((insertEntry_perm e xs).mem_iff.mp hy) with rfl | hy
        · exact Nat.le_of_lt hlt
        · exact hx y hy
      · rw [if_neg hlt, List.pairwise_cons]
        refine ⟨fun y hy => ?_, List.pairwise_cons.mpr ⟨hx, hxs⟩⟩
        rcases List.mem_cons.mp hy with rfl | hy
        · exact Nat.le_of_not_lt hlt
        · exact Nat.le_trans (hx y hy) (Nat.le_of_not_lt hlt)

/-- The dispatch sort is a permutation of the input. -/
lemma sortEntries_perm :
    ∀ l : List PreparedEntry, List.Perm (sortEntries l) l := by
  intro l
  induction l with
  | nil => exact List.Perm.refl _
  | cons x xs ih =>
      rw [sortEntries]
      exact List.Perm.trans (insertEntry_perm x (sortEntries xs))
        (List.Perm.cons x ih)

/-- The dispatch sort yields a list descending in `sortKey`. -/
lemma sortEntries_pairwise :
    ∀ l : List PreparedEntry,
      (sortEntries l).Pairwise (fun a b => sortKey b ≤ sortKey a) := by
  intro l
  induction l with
  | nil => simp [sortEntries]
  | cons x xs ih => exact insertEntry_pairwise x (sortEntries xs) ih

/-- The bits of the octal mask `0o444 = 292`. -/
lemma testBit_292 (k : Nat) :
    Nat.testBit 292 k = decide (k = 2 ∨ k = 5 ∨ k = 8) := by
  by_cases hk : k ≤ 8
  · interval_cases k <;> decide
  · have h2 : (2 : Nat) ^ 9 ≤ 2 ^ k := Nat.pow_le_pow_right (by norm_num) (by omega)
    have h3 : (2 : Nat) ^ 9 = 512 := by norm_num
    have h1 : (292 : Nat) < 2 ^ k := by omega
    rw [Nat.testBit_lt_two_pow h1]
    have hne : ¬(k = 2 ∨ k = 5 ∨ k = 8) := by omega
    simp [hne]

/-- Folding `executeStep` over progress-only results leaves the `errors`
buffer untouched. -/
lemma foldl_executeStep_errors (results : List DownloadResult) :
    ∀ acc : List DownloadEvent × List (DownloadEntry × String) × Nat,
      (∀ r ∈ results, r.isProgress = true) →
      (results.foldl executeStep acc).2.1 = acc.2.1 := by
  induction results with
  | nil => intro acc _; rfl
  | cons r rs ih =>
      intro acc h
      have hr := h r (List.mem_cons_self r rs)
      rw [List.foldl_cons, ih _ (fun x hx => h x (List.mem_cons_of_mem r hx))]
      cases r with
      | progress tid e sz spd => rfl
      | error tid e code => simp [DownloadResult.isProgress] at hr

/-- Every connection logged by the attempt loop is the one fetched before the
loop: the loop never changes `conn`. -/
lemma runEntryLoop_usedConns (parse : String → UrlParsed)
    (entry : DownloadEntry) (net : Nat → AttemptNet) (conn : Nat) :
    ∀ (attemptsLeft tryNum : Nat) (lastError : Option String) (dstExists : Bool),
      ∀ c ∈ (runEntryLoop parse entry net conn tryNum attemptsLeft lastError
        dstExists).usedConns, c = conn := by
  intro attemptsLeft
  induction attemptsLeft with
  | zero =>
      intro tryNum lastError dstExists c hc
      rw [runEntryLoop_zero] at hc
      cases lastError <;> simp at hc
  | succ n ih =>
      intro tryNum lastError dstExists c hc
      cases hnet : net tryNum with
      | raiseReq =>
          rw [runEntryLoop_raise parse entry net conn tryNum n lastError
            dstExists hnet] at hc
          simp only [List.mem_cons] at hc
          rcases hc with hc | hc
          · exact hc
          · exact ih (tryNum + 1) _ _ c hc
      | redirect location =>
          rw [runEntryLoop_redirect parse entry net conn tryNum n lastError
            dstExists location hnet] at hc
          cases hpe : PreparedEntry.from_entry parse (redirectEntry entry location) with
          | ok pe => rw [hpe] at hc; simpa using hc
          | error e => rw [hpe] at hc; simpa using hc
      | otherStatus drainRaises =>
          rw [runEntryLoop_otherStatus parse entry net conn tryNum n lastError
            dstExists drainRaises hnet] at hc
          cases drainRaises with
          | true => simpa using hc
          | false =>
              simp only [Bool.false_eq_true, if_false, List.mem_cons] at hc
              rcases hc with hc | hc
              · exact hc
              · exact ih (tryNum + 1) _ _ c hc
      | body readRaises bytes digest =>
          rw [runEntryLoop_body parse entry net conn tryNum n lastError
            dstExists readRaises bytes digest hnet] at hc
          cases readRaises with
          | true => simpa using hc
          | false =>
              simp only [Bool.false_eq_true, if_false] at hc
              by_cases hsz : (match entry.size with
                | none => false
                | some s => bytes != s) = true
              · rw [if_pos hsz] at hc
                simp only [List.mem_cons] at hc
                rcases hc with hc | hc
                · exact hc
                · exact ih (tryNum + 1) _ _ c hc
              · rw [if_neg hsz] at hc
                by_cases hsha : (match entry.sha1 with
                  | none => false
                  | some h => digest != h) = true
                · rw [if_pos hsha] at hc
                  simp only [List.mem_cons] at hc
                  rcases hc with hc | hc
                  · exact hc
                  · exact ih (tryNum + 1) _ _ c hc
                · rw [if_neg hsha] at hc
                  simpa using hc

/-- If the `last_error` invariant "a validation-failure error implies the file
was unlinked" holds on entry to the loop, then a terminal `InvalidSize` or
`InvalidSha1` failure leaves `dst` absent. -/
lemma runEntryLoop_invalid_unlinked (parse : String → UrlParsed)
    (entry : DownloadEntry) (net : Nat → AttemptNet) (conn : Nat) :
    ∀ (attemptsLeft tryNum : Nat) (lastError : Option String) (dstExists : Bool),
      ((lastError = some DownloadError.INVALID_SIZE ∨
        lastError = some DownloadError.INVALID_SHA1) → dstExists = false) →
      ∀ code,
        (runEntryLoop parse entry net conn tryNum attemptsLeft lastError
          dstExists).outcome = EntryOutcome.failure code →
        (code = DownloadError.INVALID_SIZE ∨ code = DownloadError.INVALID_SHA1) →
        (runEntryLoop parse entry net conn tryNum attemptsLeft lastError
          dstExists).dstExists = false := by
  intro attemptsLeft
  induction attemptsLeft with
  | zero =>
      intro tryNum lastError dstExists hinv code hout hcode
      rw [runEntryLoop_zero] at hout ⊢
      cases lastError with
      | none => simp at hout
      | some e =>
          simp only [EntryOutcome.failure.injEq] at hout
          subst hout
          exact hinv (hcode.imp (fun h => by rw [h]) (fun h => by rw [h]))
  | succ n ih =>
      intro tryNum lastError dstExists hinv code hout hcode
      cases hnet : net tryNum with
      | raiseReq =>
          rw [runEntryLoop_raise parse entry net conn tryNum n lastError
            dstExists hnet] at hout ⊢
          exact ih (tryNum + 1) _ _ (by intro h; rcases h with h | h <;>
            simp [DownloadError.CONNECTION, DownloadError.INVALID_SIZE,
              DownloadError.INVALID_SHA1] at h) code hout hcode
      | redirect location =>
          rw [runEntryLoop_redirect parse entry net conn tryNum n lastError
            dstExists location hnet] at hout
          cases hpe : PreparedEntry.from_entry parse (redirectEntry entry location) with
          | ok pe => rw [hpe] at hout; simp at hout
          | error e => rw [hpe] at hout; simp at hout
      | otherStatus drainRaises =>
          rw [runEntryLoop_otherStatus parse entry net conn tryNum n lastError
            dstExists drainRaises hnet] at hout ⊢
          cases drainRaises with
          | true => simp at hout
          | false =>
              simp only [Bool.false_eq_true, if_false] at hout ⊢
              exact ih (tryNum + 1) _ _ (by intro h; rcases h with h | h <;>
                simp [DownloadError.NOT_FOUND, DownloadError.INVALID_SIZE,
                  DownloadError.INVALID_SHA1] at h) code hout hcode
      | body readRaises bytes digest =>
          rw [runEntryLoop_body parse entry net conn tryNum n lastError
            dstExists readRaises bytes digest hnet] at hout ⊢
          cases readRaises with
          | true => simp at hout
          | false =>
              simp only [Bool.false_eq_true, if_false] at hout ⊢
              by_cases hsz : (match entry.size with
                | none => false
                | some s => bytes != s) = true
              · rw [if_pos hsz] at hout ⊢
                exact ih (tryNum + 1) _ _ (fun _ => rfl) code hout hcode
              · rw [if_neg hsz] at hout ⊢
                by_cases hsha : (match entry.sha1 with
                  | none => false
                  | some h => digest != h) = true
                · rw [if_pos hsha] at hout ⊢
                  exact ih (tryNum + 1) _ _ (fun _ => rfl) code hout hcode
                · rw [if_neg hsha] at hout; simp at hout

/-! Claim theorems. -/

/-- C9: for every successfully downloaded entry with executable set and every
prior file mode m, the new mode m | ((m & 0o444) >> 2) has bit i set exactly
when m has bit i set, or i is an execute-bit position (0, 3 or 6) and m has
the corresponding read bit i+2 set: every principal with read gains execute
and no other bit changes. -/
theorem claim_C9_chmod_bits (m i : Nat) :
    (chmodExecutable m).testBit i =
      (m.testBit i || (decide (i = 0 ∨ i = 3 ∨ i = 6) && m.testBit (i + 2))) := by
  unfold chmodExecutable
  rw [Nat.testBit_or, Nat.testBit_shiftRight, Nat.testBit_and, testBit_292]
  have h : decide (2 + i = 2 ∨ 2 + i = 5 ∨ 2 + i = 8) =
      decide (i = 0 ∨ i = 3 ∨ i = 6) := by
    apply decide_eq_decide.mpr
    omega
  rw [h, Bool.and_comm, Nat.add_comm 2 i]

/-- C10: the entry re-injected on a 301/302 keeps the original entry's dst,
size, sha1 and display name, but its executable flag is always false, even
when the original entry's flag was true. -/
theorem claim_C10_redirect_frame (entry : DownloadEntry) (location : String) :
    (redirectEntry entry location).url = location ∧
    (redirectEntry entry location).dst = entry.dst ∧
    (redirectEntry entry location).size = entry.size ∧
    (redirectEntry entry location).sha1 = entry.sha1 ∧
    (redirectEntry entry location).name = entry.name ∧
    (redirectEntry entry location).executable = false :=
  ⟨rfl, rfl, rfl, rfl, rfl, rfl⟩

/-- C1: against a server that answers every request with a 301 to the same
location, following the chain for 10 re-injections (a redirect chain well
beyond 5) still yields no terminal outcome: the worker keeps re-enqueuing and
never emits a Failure with code not_found, because the code attaches no depth
counter to the re-injected entry and never caps the chain. -/
theorem claim_C1_redirect_uncapped :
    runRedirectChain parse0 selfRedirectServer 10 entryLoop = none := rfl

/-- C5: for every entry that terminally fails with invalid_size or
invalid_sha1 after its 3 attempts, the destination file does not exist after
the run, whatever its state before: each failing validation unlinks the
freshly written file. -/
theorem claim_C5_invalid_unlinks (parse : String → UrlParsed)
    (entry : DownloadEntry) (net : Nat → AttemptNet) (conn : Nat)
    (dstExists0 : Bool) (code : String)
    (hfail : (runEntryLoop parse entry net conn 1 max_try_count none
      dstExists0).outcome = EntryOutcome.failure code)
    (hcode : code = DownloadError.INVALID_SIZE ∨
      code = DownloadError.INVALID_SHA1) :
    (runEntryLoop parse entry net conn 1 max_try_count none
      dstExists0).dstExists = false :=
  runEntryLoop_invalid_unlinked parse entry net conn max_try_count 1 none
    dstExists0
    (fun h => by rcases h with h | h <;> exact Option.noConfusion h)
    code hfail hcode

/-- C5 witness: an entry expecting 5 bytes served a 3-byte body on every
attempt fails with invalid_size and leaves no file, even though the file
existed before the run. -/
theorem claim_C5_witness :
    (runEntryLoop parse0 entryA netBody3 0 1 max_try_count none
      true).dstExists = false :=
  claim_C5_invalid_unlinks parse0 entryA netBody3 0 true
    DownloadError.INVALID_SIZE rfl (Or.inl rfl)

/-- C7 counterexample: an entry with declared size 0 is sorted above an entry
with declared size 500 (its sort key is 1048576, because Python's
size-or-1-MiB default also fires on the falsy size 0), contradicting the
claim that a declared size of 0 sorts below every larger declared size. -/
theorem claim_C7_cex :
    sortEntries [preparedSmall, preparedZero] = [preparedZero, preparedSmall] ∧
    preparedZero.entry.size = some 0 ∧
    preparedSmall.entry.size = some 500 :=
  ⟨rfl, rfl, rfl⟩

/-- C7 amended: before dispatch the entries are sorted by sort key descending
(and the sorted list is a permutation of the input), where the key is the
declared size except that an unset size or a declared size of 0 is treated as
1 MiB. -/
theorem claim_C7_amended (l : List PreparedEntry) :
    (sortEntries l).Pairwise (fun a b => sortKey b ≤ sortKey a) ∧
    List.Perm (sortEntries l) l ∧
    (∀ pe : PreparedEntry, pe.entry.size = none ∨ pe.entry.size = some 0 →
      sortKey pe = 1048576) ∧
    (∀ pe : PreparedEntry, ∀ n : Nat, pe.entry.size = some n → n ≠ 0 →
      sortKey pe = n) := by
  refine ⟨sortEntries_pairwise l, sortEntries_perm l, ?_, ?_⟩
  · intro pe h
    rcases h with h | h <;> simp [sortKey, pyOr, h]
  · intro pe n h hn
    simp [sortKey, pyOr, h, hn]

/-- C7 witness: the size-0 entry has sort key 1 MiB. -/
theorem claim_C7_amended_witness :
    sortKey preparedZero = 1048576 :=
  (claim_C7_amended []).2.2.1 preparedZero (Or.inr rfl)

/-- C3 counterexample: with connection 7 cached for (http, host) and every
attempt raising on request, after the entry is processed the cache still maps
(http, host) to connection 7 and all three attempts used connection 7: the
cached connection is not removed and the retry reuses the connection that
failed. -/
theorem claim_C3_cex :
    (processRawEntry parse0 cacheC3 8 preparedA netRaise).1.lookup
      (false, "host") = some 7 ∧
    (processRawEntry parse0 cacheC3 8 preparedA netRaise).2.2.2.usedConns =
      [7, 7, 7] ∧
    (processRawEntry parse0 cacheC3 8 preparedA netRaise).2.2.2.outcome =
      EntryOutcome.failure DownloadError.CONNECTION :=
  ⟨rfl, rfl, rfl⟩

/-- C3 amended: a request exception never invalidates the cached connection:
every cache entry present before the raw entry is processed is still present
(with the same connection) afterwards, and every attempt of the entry —
including retries after an exception — uses the single connection fetched
before the attempt loop. -/
theorem claim_C3_amended (parse : String → UrlParsed)
    (cache : List (ConnKey × Nat)) (nextConn : Nat) (raw : PreparedEntry)
    (net : Nat → AttemptNet) (k : ConnKey) (v : Nat)
    (h : cache.lookup k = some v) :
    (processRawEntry parse cache nextConn raw net).1.lookup k = some v ∧
    (∀ c ∈ (processRawEntry parse cache nextConn raw net).2.2.2.usedConns,
      c = (processRawEntry parse cache nextConn raw net).2.2.1) := by
  unfold processRawEntry
  cases hl : cache.lookup (raw.https, raw.host) with
  | some conn =>
      exact ⟨h, fun c hc => runEntryLoop_usedConns parse raw.entry net conn
        max_try_count 1 none false c hc⟩
  | none =>
      constructor
      · have hne : (k == (raw.https, raw.host)) = false := by
          rcases hbe : k == (raw.https, raw.host) with _ | _
          · rfl
          · exfalso
            have hk : k = (raw.https, raw.host) := eq_of_beq hbe
            rw [hk, hl] at h
            exact Option.noConfusion h
        show List.lookup k (((raw.https, raw.host), nextConn) :: cache) = some v
        simp only [List.lookup, hne]
        exact h
      · intro c hc
        exact runEntryLoop_usedConns parse raw.entry net nextConn
          max_try_count 1 none false c hc

/-- C3 witness: the cached connection for (http, host) survives an entry whose
every attempt raises. -/
theorem claim_C3_amended_witness :
    (processRawEntry parse0 cacheC3 8 preparedA netRaise).1.lookup
      (false, "host") = some 7 :=
  (claim_C3_amended parse0 cacheC3 8 preparedA netRaise (false, "host") 7
    rfl).1

/-- C4 counterexample: an exception raised while the 200 response body is
being read is not caught: the worker crashes instead of recording a
connection failure for the attempt. -/
theorem claim_C4_cex :
    (runEntryLoop parse0 entryA netReadRaise 0 1 max_try_count none
      false).outcome = EntryOutcome.crash ∧
    (runEntryLoop parse0 entryA netReadRaise 0 1 max_try_count none
      false).outcome ≠ EntryOutcome.failure DownloadError.CONNECTION := by
  decide

/-- C4 amended: an exception raised while issuing the GET request or obtaining
the response is caught and recorded as a connection failure for the attempt
(the loop continues with last_error = connection); an exception raised while
reading the response body propagates out of the worker. -/
theorem claim_C4_amended (parse : String → UrlParsed) (entry : DownloadEntry)
    (net : Nat → AttemptNet) (conn tryNum n : Nat) (lastError : Option String)
    (dstExists : Bool) :
    (net tryNum = AttemptNet.raiseReq →
      (runEntryLoop parse entry net conn tryNum (n + 1) lastError
        dstExists).outcome =
        (runEntryLoop parse entry net conn (tryNum + 1) n
          (some DownloadError.CONNECTION) dstExists).outcome ∧
      (runEntryLoop parse entry net conn tryNum (n + 1) lastError
        dstExists).dstExists =
        (runEntryLoop parse entry net conn (tryNum + 1) n
          (some DownloadError.CONNECTION) dstExists).dstExists) ∧
    (∀ bytes digest, net tryNum = AttemptNet.body true bytes digest →
      (runEntryLoop parse entry net conn tryNum (n + 1) lastError
        dstExists).outcome = EntryOutcome.crash) := by
  constructor
  · intro h
    rw [runEntryLoop_raise parse entry net conn tryNum n lastError dstExists h]
    exact ⟨rfl, rfl⟩
  · intro bytes digest h
    rw [runEntryLoop_body parse entry net conn tryNum n lastError dstExists
      true bytes digest h]
    rfl

/-- C4 witness: a read exception on the first attempt crashes the worker. -/
theorem claim_C4_amended_witness :
    (runEntryLoop parse0 entryA netReadRaise 0 1 3 none false).outcome =
      EntryOutcome.crash :=
  (claim_C4_amended parse0 entryA netReadRaise 0 1 2 none false).2 0 "" rfl

/-- C6: add skips the entry (returns the list unchanged) iff verify is set,
dst exists as a regular file, and the expected size is unset or equals the
on-disk size; otherwise it fails iff the URL scheme is neither http nor
https, and with a supported scheme it appends the prepared entry, increments
count, and adds the declared size (0 when unset) to the total size. -/
theorem claim_C6_add (parse : String → UrlParsed) (fs : String → Option Nat)
    (l : DownloadList) (entry : DownloadEntry) (verify : Bool) :
    (DownloadList.add parse fs l entry verify = Except.ok l ↔
      (verify = true ∧ (fs entry.dst).isSome ∧
        (entry.size = none ∨ entry.size = fs entry.dst))) ∧
    (¬(verify = true ∧ (fs entry.dst).isSome ∧
        (entry.size = none ∨ entry.size = fs entry.dst)) →
      (((parse entry.url).scheme ≠ "http" ∧ (parse entry.url).scheme ≠ "https") →
        DownloadList.add parse fs l entry verify =
          Except.error ("unsupported scheme " ++ (parse entry.url).scheme)) ∧
      (((parse entry.url).scheme = "http" ∨ (parse entry.url).scheme = "https") →
        DownloadList.add parse fs l entry verify =
          Except.ok (DownloadList.mk
            (l.entries ++ [PreparedEntry.mk
              ((parse entry.url).scheme == "https")
              (parse entry.url).netloc entry])
            (l.count + 1) (l.size + entry.size.getD 0)))) := by
  by_cases hskip : verify = true ∧ (fs entry.dst).isSome ∧
      (entry.size = none ∨ entry.size = fs entry.dst)
  · refine ⟨⟨fun _ => hskip, fun _ => ?_⟩, fun hn => absurd hskip hn⟩
    unfold DownloadList.add
    rw [if_pos hskip]
  · refine ⟨⟨fun heq => ?_, fun hsk => absurd hsk hskip⟩,
      fun _ => ⟨fun hs => ?_, fun hs => ?_⟩⟩
    · exfalso
      unfold DownloadList.add at heq
      rw [if_neg hskip] at heq
      unfold PreparedEntry.from_entry at heq
      by_cases hs : (parse entry.url).scheme ≠ "http" ∧
          (parse entry.url).scheme ≠ "https"
      · rw [if_pos hs] at heq
        exact Except.noConfusion heq
      · rw [if_neg hs] at heq
        have heq2 : DownloadList.mk (l.entries ++
            [{ https := (parse entry.url).scheme == "https",
               host := (parse entry.url).netloc, entry := entry }])
            (l.count + 1) (l.size + entry.size.getD 0) = l :=
          Except.ok.inj heq
        have hc := congrArg DownloadList.count heq2
        simp at hc
    · unfold DownloadList.add
      rw [if_neg hskip]
      unfold PreparedEntry.from_entry
      rw [if_pos hs]
    · unfold DownloadList.add
      rw [if_neg hskip]
      unfold PreparedEntry.from_entry
      have hs' : ¬((parse entry.url).scheme ≠ "http" ∧
          (parse entry.url).scheme ≠ "https") := by
        rcases hs with h | h
        · exact fun hc => hc.1 h
        · exact fun hc => hc.2 h
      rw [if_neg hs']

/-- C6 witness: adding a 5-byte entry without verify to the empty list over an
empty filesystem appends the prepared entry, sets count to 1 and size to 5. -/
theorem claim_C6_witness :
    DownloadList.add parse0 fs0 DownloadList.init entryA false =
      Except.ok { entries := [preparedA], count := 1, size := 5 } :=
  ((claim_C6_add parse0 fs0 DownloadList.init entryA false).2
    (by simp)).2 (Or.inl rfl)

/-- C2 counterexample: a successful run over a list with one entry, count 1
and size 5 ends with entries empty but count still 1 (and size still 5) — the
code clears only the entries, not the counters — while the claim demands
count 0 and size 0. -/
theorem claim_C2_cex :
    (DownloadTask.execute (some 1) listC2
        [DownloadResult.progress 0 entryA 5 0]).result =
      Except.ok { entries := [], count := 1, size := 5 } ∧
    (1 : Nat) ≠ 0 ∧ (5 : Nat) ≠ 0 :=
  ⟨rfl, by decide, by decide⟩

/-- C2 amended: after a run in which every result is a progress (no entry
fails), the task succeeds and the final list has empty entries, while count
and total size keep their pre-run values (they are not reset). -/
theorem claim_C2_amended (cpuCount : Option Nat) (dl : DownloadList)
    (results : List DownloadResult)
    (h : ∀ r ∈ results, r.isProgress = true) :
    (DownloadTask.execute cpuCount dl results).result =
      Except.ok { entries := [], count := dl.count, size := dl.size } := by
  have herr := foldl_executeStep_errors results
  simp only [DownloadTask.execute]
  by_cases h0 : dl.entries.length = 0
  · have hentries : dl.entries = [] := List.length_eq_zero.mp h0
    cases dl with
    | mk entries count size =>
        simp only at hentries
        subst hentries
        simp
  · rw [if_neg h0]
    simp only [herr _ h]
    simp

/-- C2 amended witness. -/
theorem claim_C2_amended_witness :
    (DownloadTask.execute (some 1) listC2
        [DownloadResult.progress 0 entryA 5 0]).result =
      Except.ok { entries := [], count := 1, size := 5 } :=
  claim_C2_amended (some 1) listC2 [DownloadResult.progress 0 entryA 5 0]
    (fun r hr => by rw [List.mem_singleton.mp hr]; rfl)

/-- C8: with a known logical cpu count n of at least 1, the number of worker
threads spawned equals min(entry count, max(1, 4 n)); and on an empty list
the task returns immediately: no thread is spawned, no event (in particular
neither start nor complete) is emitted, and the list is returned unchanged. -/
theorem claim_C8_sizing (dl : DownloadList) (results : List DownloadResult)
    (n : Nat) (hn : 1 ≤ n) :
    (DownloadTask.execute (some n) dl results).spawned =
      min dl.entries.length (max 1 (4 * n)) ∧
    (dl.entries.length = 0 →
      (DownloadTask.execute (some n) dl results).events = [] ∧
      (DownloadTask.execute (some n) dl results).result = Except.ok dl) := by
  have hpy : pyOr (some n) 1 = n := by
    show (if n = 0 then 1 else n) = n
    rw [if_neg (by omega)]
  have hmax : max 1 (4 * n) = n * 4 := by
    rw [Nat.max_eq_right (by omega : (1 : Nat) ≤ 4 * n), Nat.mul_comm]
  simp only [DownloadTask.execute, hpy, hmax]
  by_cases h0 : dl.entries.length = 0
  · simp [h0]
  · rw [if_neg h0]
    constructor
    · split <;> rfl
    · intro hc
      exact absurd hc h0

/-- C8 witness: one entry, one cpu: one worker thread. -/
theorem claim_C8_witness :
    (DownloadTask.execute (some 1) listC2 []).spawned =
      min listC2.entries.length (max 1 (4 * 1)) :=
  (claim_C8_sizing listC2 [] 1 (by decide)).1

end PortableMC
